import Mathlib

/-!
Formal model of the authentication and authorization core of the Tennis Shop
Management System backend (FastAPI + SQLAlchemy).

The embedding covers `app/dependencies.py`, `app/routers/auth.py`,
`app/models/user.py`, `app/utils/exceptions.py` and the transactional unit of
work in `app/database.py`.  The repository imports `app.utils.security`
(password hasher and token codec), whose source file is not present; those two
components are modelled from the specification, as marked on each definition.

Conventions of the embedding:
* machine state (the `users` table) is an explicit `List User`;
* fallible handlers return `Except HTTPError`;
* per-call randomness (bcrypt salt, generated UUID) and ambient data
  (secret key, current unix time) are explicit parameters;
* Python strings are Lean `String` (a wrapper around `List Char`).
-/

namespace TennisShop

/-- User role enum from `app/models/user.py` (`UserRole`): admin or staff. -/
inductive UserRole
  | ADMIN
  | STAFF
deriving DecidableEq, Repr

/-- Modelled from the spec: the salted one-way digest produced by the password
hasher of the missing `app/utils/security.py` (`get_password_hash`).  The
digest embeds the per-call salt together with the hash of salt and plaintext,
as bcrypt digests do. -/
structure Digest where
  salt : Nat
  value : Nat
deriving DecidableEq, Repr

/-- Modelled from the spec: deterministic stand-in for the one-way hash at the
core of the password hasher (keyed by the salt). -/
def hashFn (salt : Nat) (plaintext : String) : Nat :=
  plaintext.data.foldl (fun a c => a * 131 + c.toNat + 1) (salt * 1000003 + 7)

/-- Modelled from the spec: `hash(plaintext) -> digest`.  The per-call random
salt is an explicit parameter (randomness is supplied by the environment); the
digest embeds it. -/
def get_password_hash (salt : Nat) (plaintext : String) : Digest :=
  { salt := salt, value := hashFn salt plaintext }

/-- Modelled from the spec: `verify(plaintext, digest) -> bool` returns true
iff the plaintext, hashed with the digest's embedded salt, equals the digest. -/
def verify_password (plaintext : String) (digest : Digest) : Bool :=
  hashFn digest.salt plaintext == digest.value

/-- Row of the `users` table from `app/models/user.py`.  The two timestamp
columns (`created_at`, `updated_at`) are omitted: no authentication code path
reads or branches on them. -/
structure User where
  id : String
  email : String
  username : String
  hashed_password : Digest
  first_name : String
  last_name : String
  role : UserRole
  is_active : Bool
  phone_number : Option String
deriving DecidableEq, Repr

/-- Claim set carried by a token: `sub`, `exp`, `type`, cf. `TokenPayload` in
`app/schemas/token.py`.  Each claim may be absent from a decoded payload. -/
structure TokenClaims where
  sub : Option String
  exp : Option Nat
  type : Option String
deriving DecidableEq, Repr

/-- Modelled from the spec: a compact token as handled by the token codec of
the missing `app/utils/security.py`: either a well-formed claim set together
with its MAC value, or bytes that do not parse as a token at all. -/
inductive JWT
  | signed (claims : TokenClaims) (sig : Nat)
  | malformed (raw : String)
deriving DecidableEq, Repr

/-- Numeric encoding of an optional string claim, input to the model MAC. -/
def encodeOptStr : Option String → Nat
  | none => 0
  | some s => s.data.foldl (fun a c => a * 257 + c.toNat + 1) 1

/-- Numeric encoding of an optional numeric claim, input to the model MAC. -/
def encodeOptNat : Option Nat → Nat
  | none => 0
  | some n => n + 1

/-- Modelled from the spec: symmetric MAC over the claim set keyed by the
process-wide `SECRET_KEY` (an HMAC-SHA-256 equivalent in the source). -/
def signClaims (key : Nat) (c : TokenClaims) : Nat :=
  ((key + 131) * 1000003 + encodeOptStr c.sub) * 1000003 * 1000003
    + encodeOptNat c.exp * 1000003 + encodeOptStr c.type

/-- `ACCESS_TOKEN_EXPIRE_MINUTES = 480` from `app/config.py`, in seconds. -/
def ACCESS_TOKEN_TTL : Nat := 480 * 60

/-- `REFRESH_TOKEN_EXPIRE_DAYS = 30` from `app/config.py`, in seconds. -/
def REFRESH_TOKEN_TTL : Nat := 30 * 86400

/-- Modelled from the spec: `issue(subject, type, ttl)` — encodes the claim
set with expiry `now + ttl` and signs it with the process secret. -/
def create_token (key now : Nat) (sub ty : String) (ttl : Nat) : JWT :=
  .signed { sub := some sub, exp := some (now + ttl), type := some ty }
    (signClaims key { sub := some sub, exp := some (now + ttl), type := some ty })

/-- Modelled from the spec: mint an access token with the short TTL. -/
def create_access_token (key now : Nat) (sub : String) : JWT :=
  create_token key now sub "access" ACCESS_TOKEN_TTL

/-- Modelled from the spec: mint a refresh token with the long TTL. -/
def create_refresh_token (key now : Nat) (sub : String) : JWT :=
  create_token key now sub "refresh" REFRESH_TOKEN_TTL

/-- Modelled from the spec: `decode(token) -> claims | failure`.  Returns an
explicit `none` (never an uncaught exception) on malformed encoding, signature
mismatch, missing required `exp` claim, or expiry; a token is valid while the
current time has not passed issuance time plus TTL. -/
def decode_token (key now : Nat) : JWT → Option TokenClaims
  | .malformed _ => none
  | .signed c sig =>
    if sig == signClaims key c then
      match c.exp with
      | none => none
      | some e => if now ≤ e then some c else none
    else none

/-- Modelled from the spec: `check_type(claims, expected)` — true iff the type
claim is present and matches the expected tag. -/
def verify_token_type (payload : TokenClaims) (expected : String) : Bool :=
  payload.type == some expected

/-- Subject claim of a token, if it is well formed. -/
def jwtSub : JWT → Option String
  | .signed c _ => c.sub
  | .malformed _ => none

/-- HTTP error taxonomy of `app/utils/exceptions.py`, restricted to the
constructors raised by the authentication core: 401, 403, 409. -/
inductive HTTPError
  | unauthorized (detail : String)
  | forbidden (detail : String)
  | conflict (detail : String)
deriving DecidableEq, Repr

/-- Failure modes of the relational store surfaced by a commit, cf. the
unique constraints on `users.id`, `users.email`, `users.username`. -/
inductive DBError
  | integrityError
deriving DecidableEq, Repr

/-- What escapes a request handler: an HTTP exception it raised on purpose, or
a store-level error that `get_db` (`app/database.py`) re-raised after rolling
the transaction back. -/
inductive RegisterFailure
  | http (e : HTTPError)
  | dbErr (e : DBError)
deriving DecidableEq, Repr

/-- Characters of the literal scheme string `"Bearer "`. -/
def bearerChars : List Char := ['B', 'e', 'a', 'r', 'e', 'r', ' ']

/-- One left-to-right scan of Python `str.replace("Bearer ", "")`: every
non-overlapping occurrence of the pattern is removed.  `fuel` only bounds the
recursion; each step consumes at least one character, so fuel equal to the
length of the input always suffices. -/
def replaceBearerAux : Nat → List Char → List Char
  | 0, s => s
  | _ + 1, [] => []
  | fuel + 1, c :: rest =>
    if bearerChars.isPrefixOf (c :: rest) then replaceBearerAux fuel (rest.drop 6)
    else c :: replaceBearerAux fuel rest

/-- Line 34 of `app/dependencies.py`:
`token = authorization.replace("Bearer ", "")`.  Python `str.replace` removes
every occurrence of the pattern, not only a leading one. -/
def extractToken (authorization : String) : String :=
  String.mk (replaceBearerAux authorization.data.length authorization.data)

/-- Does `"Bearer "` occur as a contiguous substring? -/
def occursBearer : List Char → Bool
  | [] => false
  | c :: rest => bearerChars.isPrefixOf (c :: rest) || occursBearer rest

/-- Is `c` an ASCII hexadecimal digit? -/
def isHexChar (c : Char) : Bool :=
  c.isDigit || (97 ≤ c.toNat && c.toNat ≤ 102) || (65 ≤ c.toNat && c.toNat ≤ 70)

/-- Acceptance check of `uuid.UUID(user_id)` on line 48 of
`app/dependencies.py`, modelled as the canonical form every identifier
generated by the application satisfies: 36 characters, hyphens exactly at
positions 8, 13, 18 and 23, hexadecimal digits elsewhere. -/
def isValidUUID (s : String) : Bool :=
  s.length == 36 &&
    s.data.enum.all fun p =>
      if p.1 == 8 || p.1 == 13 || p.1 == 18 || p.1 == 23 then p.2 == '-'
      else isHexChar p.2

/-- `get_current_user` from `app/dependencies.py`.  The missing
`security.decode_token` operates on compact string tokens and enters the
dependency as the oracle `decodeTok`.  A `none` header and Python's falsy
empty header both fail the first guard, since the empty string does not start
with the scheme string either.  The source also re-checks Python falsiness of
the `sub` claim (`if not user_id`), which rejects a present-but-empty subject
before the UUID check; the model keeps that guard. -/
def get_current_user (db : List User) (decodeTok : String → Option TokenClaims)
    (authorization : Option String) : Except HTTPError User :=
  match authorization with
  | none => .error (.unauthorized "Missing or invalid authorization header")
  | some auth =>
    if bearerChars.isPrefixOf auth.data then
      match decodeTok (extractToken auth) with
      | none => .error (.unauthorized "Invalid or expired token")
      | some payload =>
        if verify_token_type payload "access" then
          match payload.sub with
          | none => .error (.unauthorized "Invalid token payload")
          | some user_id =>
            if user_id == "" then .error (.unauthorized "Invalid token payload")
            else if isValidUUID user_id then
              match db.find? (fun u => u.id == user_id) with
              | none => .error (.unauthorized "User not found")
              | some user =>
                if user.is_active then .ok user
                else .error (.unauthorized "User account is deactivated")
            else .error (.unauthorized "Invalid user ID format")
        else .error (.unauthorized "Invalid token type")
    else .error (.unauthorized "Missing or invalid authorization header")

/-- `require_admin` from `app/dependencies.py`.  Its `current_user` argument
is the outcome of the `get_current_user` dependency: FastAPI propagates a
dependency failure unchanged, and the handler body runs only on `.ok`. -/
def require_admin (current_user : Except HTTPError User) : Except HTTPError User :=
  match current_user with
  | .error e => .error e
  | .ok user =>
    if user.role = UserRole.ADMIN then .ok user
    else .error (.forbidden "Admin access required")

/-- `UserLogin` request schema from `app/schemas/user.py`. -/
structure UserLogin where
  username : String
  password : String
deriving DecidableEq, Repr

/-- `UserCreate` request schema from `app/schemas/user.py` (role defaulting to
staff is applied by the schema layer before the handler runs). -/
structure UserCreate where
  email : String
  username : String
  password : String
  first_name : String
  last_name : String
  phone_number : Option String
  role : UserRole
deriving DecidableEq, Repr

/-- `Token` response schema from `app/schemas/token.py`. -/
structure Token where
  access_token : JWT
  refresh_token : JWT
  token_type : String
deriving DecidableEq, Repr

/-- `RefreshTokenRequest` schema from `app/schemas/token.py`. -/
structure RefreshTokenRequest where
  refresh_token : JWT
deriving DecidableEq, Repr

/-- `login` from `app/routers/auth.py`: look the user up by username, check
the password against the stored digest (one shared failure message for the
two cases, as in the source), check the active flag, then mint a fresh token
pair bound to the user's identifier.  The handler performs no writes. -/
def login (key now : Nat) (db : List User) (credentials : UserLogin) :
    Except HTTPError Token :=
  match db.find? (fun u => u.username == credentials.username) with
  | none => .error (.unauthorized "Incorrect username or password")
  | some user =>
    if verify_password credentials.password user.hashed_password then
      if user.is_active then
        .ok { access_token := create_access_token key now user.id,
              refresh_token := create_refresh_token key now user.id,
              token_type := "bearer" }
      else .error (.unauthorized "User account is deactivated")
    else .error (.unauthorized "Incorrect username or password")

/-- `refresh_access_token` from `app/routers/auth.py`: decode the presented
refresh token, require type `refresh`, require a non-empty subject, re-check
that the user exists and is active, then mint a brand-new pair.  The handler
performs no writes, so the store is untouched and nothing invalidates the
token that was presented. -/
def refresh_access_token (key now : Nat) (db : List User)
    (refresh_data : RefreshTokenRequest) : Except HTTPError Token :=
  match decode_token key now refresh_data.refresh_token with
  | none => .error (.unauthorized "Invalid or expired refresh token")
  | some payload =>
    if verify_token_type payload "refresh" then
      match payload.sub with
      | none => .error (.unauthorized "Invalid token payload")
      | some user_id =>
        if user_id == "" then .error (.unauthorized "Invalid token payload")
        else
          match db.find? (fun u => u.id == user_id) with
          | none => .error (.unauthorized "User not found or deactivated")
          | some user =>
            if user.is_active then
              .ok { access_token := create_access_token key now user.id,
                    refresh_token := create_refresh_token key now user.id,
                    token_type := "bearer" }
            else .error (.unauthorized "User not found or deactivated")
    else .error (.unauthorized "Invalid token type")

/-- Commit-time unique-constraint enforcement by the store on the `users`
table: primary-key `id`, unique `email`, unique `username`
(`app/models/user.py`).  A violation raises `IntegrityError`. -/
def commitUser (db : List User) (u : User) : Except DBError (List User) :=
  if db.any (fun v => v.id == u.id || v.email == u.email || v.username == u.username)
  then .error .integrityError
  else .ok (db ++ [u])

/-- `register` from `app/routers/auth.py`, wrapped in the `get_db` unit of
work from `app/database.py`.  `dbCheck` is the store snapshot seen by the two
application-level duplicate queries; `dbCommit` is the one the final commit
runs against (they differ exactly when a concurrent request commits between
the checks and the commit).  `newId` is the generated UUID primary key and
`salt` the hasher's per-call randomness, both explicit parameters.  On any
failure the session is rolled back, so the returned store is `dbCommit`
unchanged; note that a commit-time `IntegrityError` is re-raised as-is by
`get_db` — neither the handler nor the application has a handler translating
it into an HTTP 409. -/
def register (dbCheck dbCommit : List User) (user_data : UserCreate)
    (newId : String) (salt : Nat) : Except RegisterFailure User × List User :=
  if (dbCheck.find? (fun u => u.username == user_data.username)).isSome then
    (.error (.http (.conflict "Username already registered")), dbCommit)
  else if (dbCheck.find? (fun u => u.email == user_data.email)).isSome then
    (.error (.http (.conflict "Email already registered")), dbCommit)
  else
    let new_user : User :=
      { id := newId, email := user_data.email, username := user_data.username,
        hashed_password := get_password_hash salt user_data.password,
        first_name := user_data.first_name, last_name := user_data.last_name,
        role := user_data.role, is_active := true,
        phone_number := user_data.phone_number }
    match commitUser dbCommit new_user with
    | .error e => (.error (.dbErr e), dbCommit)
    | .ok db2 => (.ok new_user, db2)

/-- A request outcome is a 401. -/
def isUnauthorized {α : Type} (r : Except HTTPError α) : Prop :=
  ∃ m, r = .error (HTTPError.unauthorized m)

/-- A request outcome is a 403. -/
def isForbidden {α : Type} (r : Except HTTPError α) : Prop :=
  ∃ m, r = .error (HTTPError.forbidden m)

/-- Rejection condition of the authorization gate, written from the words of
the specification (section 4.4) rather than from the control flow of
`get_current_user`, for comparison with it: header absent or not led by the
scheme string, undecodable credential, wrong token type, subject claim absent
or not a well-formed identifier, or user row absent or inactive. -/
def gateRejects (db : List User) (decodeTok : String → Option TokenClaims) :
    Option String → Prop
  | none => True
  | some a =>
    bearerChars.isPrefixOf a.data = false
    ∨ decodeTok (extractToken a) = none
    ∨ ∃ payload, decodeTok (extractToken a) = some payload ∧
        (verify_token_type payload "access" = false
          ∨ payload.sub = none
          ∨ ∃ uid, payload.sub = some uid ∧
              (isValidUUID uid = false
                ∨ List.find? (fun u => u.id == uid) db = none
                ∨ ∃ u, List.find? (fun v => v.id == uid) db = some u ∧
                    u.is_active = false))

/-! ### Shared concrete fixtures used by witness theorems -/

/-- A canonical-form user identifier. -/
def wId : String := "11111111-1111-1111-1111-111111111111"

/-- A second canonical-form user identifier. -/
def wId2 : String := "22222222-2222-2222-2222-222222222222"

/-- A concrete active admin user. -/
def wUser : User :=
  { id := wId, email := "a@x.com", username := "alice",
    hashed_password := get_password_hash 3 "secret123",
    first_name := "A", last_name := "L", role := .ADMIN, is_active := true,
    phone_number := none }

/-! ### Theorems -/

/-- C9: for every plaintext, verification succeeds against the digest of any
hashing call on that plaintext, and two calls with different salts produce
different digests that both verify. -/
theorem password_hash_spec (plaintext : String) (s1 s2 : Nat) :
    verify_password plaintext (get_password_hash s1 plaintext) = true
    ∧ verify_password plaintext (get_password_hash s2 plaintext) = true
    ∧ (s1 ≠ s2 → get_password_hash s1 plaintext ≠ get_password_hash s2 plaintext) := by
  refine ⟨?_, ?_, ?_⟩
  · simp [verify_password, get_password_hash]
  · simp [verify_password, get_password_hash]
  · intro hne hcontra
    exact hne (congrArg Digest.salt hcontra)

/-- Witness for C9 at plaintext "secret123" with salts 0 and 1. -/
theorem password_hash_spec_witness :
    verify_password "secret123" (get_password_hash 0 "secret123") = true
    ∧ verify_password "secret123" (get_password_hash 1 "secret123") = true
    ∧ get_password_hash 0 "secret123" ≠ get_password_hash 1 "secret123" := by
  obtain ⟨h1, h2, h3⟩ := password_hash_spec "secret123" 0 1
  exact ⟨h1, h2, h3 (by decide)⟩

/-- C8: the token codec returns an explicit empty result (it is a total
function into `Option`, so nothing escapes into the caller) on malformed
encoding, signature mismatch, expired timestamp and missing required claim;
and a token issued with ttl `t` decodes successfully right after issuance and
decodes to nothing once the current time exceeds issuance time plus `t`. -/
theorem decode_token_spec :
    (∀ key now raw, decode_token key now (.malformed raw) = none)
    ∧ (∀ key now c sig, sig ≠ signClaims key c →
        decode_token key now (.signed c sig) = none)
    ∧ (∀ key now c sig e, c.exp = some e → e < now →
        decode_token key now (.signed c sig) = none)
    ∧ (∀ key now c sig, c.exp = none → decode_token key now (.signed c sig) = none)
    ∧ (∀ key t0 sub ty ttl, decode_token key t0 (create_token key t0 sub ty ttl) =
        some { sub := some sub, exp := some (t0 + ttl), type := some ty })
    ∧ (∀ key t0 now sub ty ttl, t0 + ttl < now →
        decode_token key now (create_token key t0 sub ty ttl) = none) := by
  refine ⟨?_, ?_, ?_, ?_, ?_, ?_⟩
  · intro key now raw
    rfl
  · intro key now c sig h
    simp [decode_token, beq_iff_eq, h]
  · intro key now c sig e he h
    simp [decode_token, he, Nat.not_le.mpr h]
  · intro key now c sig he
    simp [decode_token, he]
  · intro key t0 sub ty ttl
    simp [decode_token, create_token, Nat.le_add_right]
  · intro key t0 now sub ty ttl h
    simp [decode_token, create_token, Nat.not_le.mpr h]

/-- Witness for C8 at concrete keys, claim sets and times. -/
theorem decode_token_spec_witness :
    decode_token 1 2 (.malformed "zz") = none
    ∧ decode_token 1 2 (.signed ⟨none, some 5, none⟩ 0) = none
    ∧ decode_token 1 9 (.signed ⟨none, some 5, none⟩
        (signClaims 1 ⟨none, some 5, none⟩)) = none
    ∧ decode_token 1 2 (.signed ⟨none, none, none⟩
        (signClaims 1 ⟨none, none, none⟩)) = none
    ∧ decode_token 1 2 (create_token 1 2 "s" "access" 10) =
        some { sub := some "s", exp := some 12, type := some "access" }
    ∧ decode_token 1 99 (create_token 1 2 "s" "access" 10) = none := by
  obtain ⟨h1, h2, h3, h4, h5, h6⟩ := decode_token_spec
  refine ⟨h1 1 2 "zz", h2 1 2 _ 0 (by decide), h3 1 9 _ _ 5 rfl (by decide),
    h4 1 2 _ _ rfl, ?_, h6 1 2 99 "s" "access" 10 (by decide)⟩
  simpa using h5 1 2 "s" "access" 10

/-- Fuel-indexed scan of the replace loop leaves a string free of
`"Bearer "` untouched. -/
theorem replaceBearerAux_of_not_occurs (fuel : Nat) :
    ∀ t : List Char, t.length ≤ fuel → occursBearer t = false →
      replaceBearerAux fuel t = t := by
  induction fuel with
  | zero =>
    intro t _ _
    rfl
  | succ n ih =>
    intro t hlen hocc
    cases t with
    | nil => rfl
    | cons c rest =>
      rw [occursBearer] at hocc
      simp only [Bool.or_eq_false_iff] at hocc
      simp only [replaceBearerAux]
      rw [if_neg (by simp [hocc.1]), ih rest (by simpa using hlen) hocc.2]

/-- The scan on `"Bearer " ++ t` with clean `t` strips exactly the scheme
string. -/
theorem replaceBearerAux_strip (fuel : Nat) (t : List Char) (hlen : t.length ≤ fuel)
    (hocc : occursBearer t = false) :
    replaceBearerAux (fuel + 1) (bearerChars ++ t) = t := by
  have hstep : bearerChars ++ t = 'B' :: (['e', 'a', 'r', 'e', 'r', ' '] ++ t) := rfl
  rw [hstep]
  simp only [replaceBearerAux]
  rw [if_pos (by simp [bearerChars, List.isPrefixOf])]
  have hdrop : (['e', 'a', 'r', 'e', 'r', ' '] ++ t).drop 6 = t := rfl
  rw [hdrop]
  exact replaceBearerAux_of_not_occurs fuel t hlen hocc

/-- Header-level form: for headers made of the scheme string followed by a
token free of `"Bearer "`, extraction returns exactly that token. -/
theorem extractToken_bearer (t : String) (h : occursBearer t.data = false) :
    extractToken ("Bearer " ++ t) = t := by
  have hdata : ("Bearer " ++ t).data = bearerChars ++ t.data := by
    rw [String.data_append]
    rfl
  have hlen : (bearerChars ++ t.data).length = t.data.length + 6 + 1 := by
    simp [bearerChars]
  unfold extractToken
  rw [hdata, hlen, replaceBearerAux_strip (t.data.length + 6) t.data (by omega) h]

/-- C10: bearer extraction removes every occurrence of the substring
`"Bearer "`, not only the leading scheme string: a header whose token part
does not contain `"Bearer "` yields exactly that token, while a token that
does contain it is mangled before decoding. -/
theorem extractToken_spec :
    (∀ t : String, occursBearer t.data = false → extractToken ("Bearer " ++ t) = t)
    ∧ occursBearer "aBearer b".data = true
    ∧ extractToken ("Bearer " ++ "aBearer b") ≠ "aBearer b"
    ∧ extractToken ("Bearer " ++ "aBearer b") = "ab" :=
  ⟨extractToken_bearer, by decide, by decide, by decide⟩

/-- Witness for C10 at the clean token "abc123". -/
theorem extractToken_spec_witness : extractToken ("Bearer " ++ "abc123") = "abc123" :=
  extractToken_spec.1 "abc123" (by decide)

/-- C5: access and refresh tokens are never interchangeable.  Decoding any
minted refresh token yields a claim set failing the access type check and
vice versa; the authorization gate rejects with 401 any credential whose
decoded type claim is `refresh`; and the refresh endpoint rejects with 401
any token whose decoded type claim is `access`. -/
theorem token_type_separation :
    (∀ key t0 now sub p, decode_token key now (create_refresh_token key t0 sub) = some p →
        verify_token_type p "access" = false)
    ∧ (∀ key t0 now sub p, decode_token key now (create_access_token key t0 sub) = some p →
        verify_token_type p "refresh" = false)
    ∧ (∀ (db : List User) (decodeTok : String → Option TokenClaims) (a : String) payload,
        decodeTok (extractToken a) = some payload → payload.type = some "refresh" →
        isUnauthorized (get_current_user db decodeTok (some a)))
    ∧ (∀ key now (db : List User) (r : RefreshTokenRequest) payload,
        decode_token key now r.refresh_token = some payload → payload.type = some "access" →
        isUnauthorized (refresh_access_token key now db r)) := by
  refine ⟨?_, ?_, ?_, ?_⟩
  · intro key t0 now sub p h
    simp [create_refresh_token, create_token, decode_token] at h
    obtain ⟨-, hp⟩ := h
    rw [← hp]
    simp [verify_token_type]
  · intro key t0 now sub p h
    simp [create_access_token, create_token, decode_token] at h
    obtain ⟨-, hp⟩ := h
    rw [← hp]
    simp [verify_token_type]
  · intro db decodeTok a payload hdec htype
    have hv : verify_token_type payload "access" = false := by
      simp [verify_token_type, htype]
    cases hpre : bearerChars.isPrefixOf a.data with
    | false =>
      refine ⟨"Missing or invalid authorization header", ?_⟩
      simp [get_current_user, hpre]
    | true =>
      refine ⟨"Invalid token type", ?_⟩
      simp [get_current_user, hpre, hdec, hv]
  · intro key now db r payload hdec htype
    have hv : verify_token_type payload "refresh" = false := by
      simp [verify_token_type, htype]
    refine ⟨"Invalid token type", ?_⟩
    simp [refresh_access_token, hdec, hv]

/-- Witness for C5: the gate rejects a decoded refresh-type credential and
the refresh endpoint rejects a freshly minted access token. -/
theorem token_type_separation_witness :
    isUnauthorized (get_current_user []
      (fun _ => some { sub := some wId, exp := some 100, type := some "refresh" })
      (some "Bearer x"))
    ∧ isUnauthorized (refresh_access_token 1 2 []
        { refresh_token := create_access_token 1 2 "s" }) := by
  obtain ⟨-, -, h3, h4⟩ := token_type_separation
  constructor
  · exact h3 []
      (fun _ => some { sub := some wId, exp := some 100, type := some "refresh" }) "Bearer x"
      { sub := some wId, exp := some 100, type := some "refresh" } rfl rfl
  · exact h4 1 2 [] _
      { sub := some "s", exp := some (2 + ACCESS_TOKEN_TTL), type := some "access" }
      (by decide) rfl

/-- Every outcome of the authorization gate is a resolved principal or a 401:
the gate itself never raises 403 or 409. -/
theorem get_current_user_ok_or_unauthorized (db : List User)
    (decodeTok : String → Option TokenClaims) (authorization : Option String) :
    (∃ u, get_current_user db decodeTok authorization = .ok u)
    ∨ isUnauthorized (get_current_user db decodeTok authorization) := by
  unfold get_current_user isUnauthorized
  rcases authorization with _ | a
  · exact Or.inr ⟨_, rfl⟩
  · dsimp only
    repeat' split
    all_goals first
      | exact Or.inl ⟨_, rfl⟩
      | exact Or.inr ⟨_, rfl⟩

/-- C6: `require_admin` yields 403 exactly when the resolved principal's role
is not admin, returns the principal unchanged when it is, and propagates an
authentication failure unchanged — and since the gate itself never produces a
403, authentication failures never surface as `Forbidden`. -/
theorem require_admin_spec :
    (∀ u : User, isForbidden (require_admin (.ok u)) ↔ u.role ≠ UserRole.ADMIN)
    ∧ (∀ u : User, u.role = UserRole.ADMIN → require_admin (.ok u) = .ok u)
    ∧ (∀ e, require_admin (.error e) = .error e)
    ∧ (∀ (db : List User) (decodeTok : String → Option TokenClaims) authorization,
        ¬ isForbidden (get_current_user db decodeTok authorization)) := by
  refine ⟨?_, ?_, ?_, ?_⟩
  · intro u
    by_cases h : u.role = UserRole.ADMIN
    · simp [require_admin, h, isForbidden]
    · simp [require_admin, h, isForbidden]
  · intro u h
    simp [require_admin, h]
  · intro e
    rfl
  · intro db decodeTok authorization hforb
    obtain ⟨m, hm⟩ := hforb
    rcases get_current_user_ok_or_unauthorized db decodeTok authorization with
      ⟨u, hu⟩ | ⟨m2, hm2⟩
    · rw [hu] at hm
      exact Except.noConfusion hm
    · rw [hm2] at hm
      exact HTTPError.noConfusion (Except.error.inj hm)

/-- Witness for C6: an admin principal passes through unchanged. -/
theorem require_admin_spec_witness : require_admin (.ok wUser) = .ok wUser :=
  require_admin_spec.2.1 wUser rfl

/-- C2: login fails 401 exactly when no user carries the username, the
password fails verification against the stored digest, or the account is
inactive; otherwise it succeeds with a freshly minted access and refresh
token pair whose subject claim is the user's identifier. -/
theorem login_spec (key now : Nat) (db : List User) (credentials : UserLogin) :
    (isUnauthorized (login key now db credentials) ↔
      ((∀ u ∈ db, u.username ≠ credentials.username)
        ∨ ∃ u, List.find? (fun v => v.username == credentials.username) db = some u ∧
            (verify_password credentials.password u.hashed_password = false
              ∨ u.is_active = false)))
    ∧ (∀ tp, login key now db credentials = .ok tp →
        ∃ u, List.find? (fun v => v.username == credentials.username) db = some u ∧
          verify_password credentials.password u.hashed_password = true ∧
          u.is_active = true ∧
          tp = { access_token := create_access_token key now u.id,
                 refresh_token := create_refresh_token key now u.id,
                 token_type := "bearer" } ∧
          jwtSub tp.access_token = some u.id ∧ jwtSub tp.refresh_token = some u.id)
    ∧ (¬ ((∀ u ∈ db, u.username ≠ credentials.username)
          ∨ ∃ u, List.find? (fun v => v.username == credentials.username) db = some u ∧
              (verify_password credentials.password u.hashed_password = false
                ∨ u.is_active = false)) →
        ∃ tp, login key now db credentials = .ok tp) := by
  cases hfind : List.find? (fun v => v.username == credentials.username) db with
  | none =>
    have habs : ∀ u ∈ db, u.username ≠ credentials.username := by
      intro u hu
      have := List.find?_eq_none.mp hfind u hu
      simpa using this
    refine ⟨?_, ?_, ?_⟩
    · rw [show login key now db credentials =
        .error (.unauthorized "Incorrect username or password") by
          simp [login, hfind]]
      exact iff_of_true ⟨_, rfl⟩ (Or.inl habs)
    · intro tp htp
      rw [show login key now db credentials =
        .error (.unauthorized "Incorrect username or password") by
          simp [login, hfind]] at htp
      exact Except.noConfusion htp
    · intro hn
      exact absurd (Or.inl habs) hn
  | some user =>
    cases hv : verify_password credentials.password user.hashed_password with
    | false =>
      have hrej : (∀ u ∈ db, u.username ≠ credentials.username)
          ∨ ∃ u, (some user : Option User) = some u ∧
              (verify_password credentials.password u.hashed_password = false
                ∨ u.is_active = false) :=
        Or.inr ⟨user, rfl, Or.inl hv⟩
      refine ⟨?_, ?_, ?_⟩
      · rw [show login key now db credentials =
          .error (.unauthorized "Incorrect username or password") by
            simp [login, hfind, hv]]
        exact iff_of_true ⟨_, rfl⟩ hrej
      · intro tp htp
        rw [show login key now db credentials =
          .error (.unauthorized "Incorrect username or password") by
            simp [login, hfind, hv]] at htp
        exact Except.noConfusion htp
      · intro hn
        exact absurd hrej hn
    | true =>
      cases hact : user.is_active with
      | false =>
        have hrej : (∀ u ∈ db, u.username ≠ credentials.username)
            ∨ ∃ u, (some user : Option User) = some u ∧
                (verify_password credentials.password u.hashed_password = false
                  ∨ u.is_active = false) :=
          Or.inr ⟨user, rfl, Or.inr hact⟩
        refine ⟨?_, ?_, ?_⟩
        · rw [show login key now db credentials =
            .error (.unauthorized "User account is deactivated") by
              simp [login, hfind, hv, hact]]
          exact iff_of_true ⟨_, rfl⟩ hrej
        · intro tp htp
          rw [show login key now db credentials =
            .error (.unauthorized "User account is deactivated") by
              simp [login, hfind, hv, hact]] at htp
          exact Except.noConfusion htp
        · intro hn
          exact absurd hrej hn
      | true =>
        have hok : login key now db credentials =
            .ok { access_token := create_access_token key now user.id,
                  refresh_token := create_refresh_token key now user.id,
                  token_type := "bearer" } := by
          simp [login, hfind, hv, hact]
        have hnrej : ¬ ((∀ u ∈ db, u.username ≠ credentials.username)
            ∨ ∃ u, (some user : Option User) = some u ∧
                (verify_password credentials.password u.hashed_password = false
                  ∨ u.is_active = false)) := by
          rintro (h | ⟨u, hu, hbad⟩)
          · exact h user (List.mem_of_find?_eq_some hfind)
              (by simpa using List.find?_some hfind)
          · injection hu with hu
            subst hu
            rcases hbad with h | h
            · rw [hv] at h
              exact Bool.noConfusion h
            · rw [hact] at h
              exact Bool.noConfusion h
        refine ⟨?_, ?_, ?_⟩
        · rw [hok]
          exact iff_of_false (by rintro ⟨m, hm⟩; exact Except.noConfusion hm) hnrej
        · intro tp htp
          rw [hok] at htp
          injection htp with htp
          subst htp
          exact ⟨user, rfl, hv, hact, rfl, rfl, rfl⟩
        · intro _
          exact ⟨_, hok⟩

/-- Witness for C2: a concrete successful login. -/
theorem login_spec_witness :
    ∃ u, List.find?
        (fun v => v.username == (UserLogin.mk "alice" "secret123").username) [wUser] =
          some u ∧
      verify_password (UserLogin.mk "alice" "secret123").password u.hashed_password = true ∧
      u.is_active = true ∧
      Token.mk (create_access_token 5 10 wId) (create_refresh_token 5 10 wId) "bearer" =
        { access_token := create_access_token 5 10 u.id,
          refresh_token := create_refresh_token 5 10 u.id,
          token_type := "bearer" } ∧
      jwtSub (Token.mk (create_access_token 5 10 wId)
        (create_refresh_token 5 10 wId) "bearer").access_token = some u.id ∧
      jwtSub (Token.mk (create_access_token 5 10 wId)
        (create_refresh_token 5 10 wId) "bearer").refresh_token = some u.id :=
  (login_spec 5 10 [wUser] (UserLogin.mk "alice" "secret123")).2.1
    (Token.mk (create_access_token 5 10 wId) (create_refresh_token 5 10 wId) "bearer") rfl

/-- C3: refresh fails 401 exactly when the token does not decode (invalid or
expired), carries the wrong type, lacks a subject, or the referenced user is
absent or inactive; otherwise it mints a brand-new pair for that subject.
The handler writes nothing, so nothing invalidates the presented token: a
minted refresh token decodes to the same claims at every instant up to its
own expiry, independent of any state (final conjunct).  The hypothesis that
no stored user carries the empty identifier reflects that identifiers are
generated UUID strings. -/
theorem refresh_spec (key now : Nat) (db : List User) (r : RefreshTokenRequest)
    (hids : ∀ u ∈ db, u.id ≠ "") :
    (isUnauthorized (refresh_access_token key now db r) ↔
      (decode_token key now r.refresh_token = none
        ∨ ∃ payload, decode_token key now r.refresh_token = some payload ∧
            (verify_token_type payload "refresh" = false
              ∨ payload.sub = none
              ∨ ∃ uid, payload.sub = some uid ∧
                  (List.find? (fun u => u.id == uid) db = none
                    ∨ ∃ u, List.find? (fun v => v.id == uid) db = some u ∧
                        u.is_active = false))))
    ∧ (∀ tp, refresh_access_token key now db r = .ok tp →
        ∃ u payload, decode_token key now r.refresh_token = some payload ∧
          payload.sub = some u.id ∧
          List.find? (fun v => v.id == u.id) db = some u ∧ u.is_active = true ∧
          tp = { access_token := create_access_token key now u.id,
                 refresh_token := create_refresh_token key now u.id,
                 token_type := "bearer" })
    ∧ (∀ t0 sub now2, now2 ≤ t0 + REFRESH_TOKEN_TTL →
        decode_token key now2 (create_refresh_token key t0 sub) =
          some { sub := some sub, exp := some (t0 + REFRESH_TOKEN_TTL),
                 type := some "refresh" }) := by
  refine ⟨?_, ?_, ?_⟩
  · cases hdec : decode_token key now r.refresh_token with
    | none =>
      rw [show refresh_access_token key now db r =
        .error (.unauthorized "Invalid or expired refresh token") by
          simp [refresh_access_token, hdec]]
      exact iff_of_true ⟨_, rfl⟩ (Or.inl rfl)
    | some payload =>
      cases htype : verify_token_type payload "refresh" with
      | false =>
        rw [show refresh_access_token key now db r =
          .error (.unauthorized "Invalid token type") by
            simp [refresh_access_token, hdec, htype]]
        exact iff_of_true ⟨_, rfl⟩ (Or.inr ⟨payload, rfl, Or.inl htype⟩)
      | true =>
        cases hsub : payload.sub with
        | none =>
          rw [show refresh_access_token key now db r =
            .error (.unauthorized "Invalid token payload") by
              simp [refresh_access_token, hdec, htype, hsub]]
          exact iff_of_true ⟨_, rfl⟩ (Or.inr ⟨payload, rfl, Or.inr (Or.inl hsub)⟩)
        | some uid =>
          cases hemp : uid == "" with
          | true =>
            have huid : uid = "" := by simpa using hemp
            have hfe : List.find? (fun u => u.id == uid) db = none := by
              rw [huid]
              exact List.find?_eq_none.mpr fun u hu => by simpa using hids u hu
            rw [show refresh_access_token key now db r =
              .error (.unauthorized "Invalid token payload") by
                simp [refresh_access_token, hdec, htype, hsub, hemp]]
            exact iff_of_true ⟨_, rfl⟩
              (Or.inr ⟨payload, rfl, Or.inr (Or.inr ⟨uid, hsub, Or.inl hfe⟩)⟩)
          | false =>
            cases hfind : List.find? (fun u => u.id == uid) db with
            | none =>
              rw [show refresh_access_token key now db r =
                .error (.unauthorized "User not found or deactivated") by
                  simp [refresh_access_token, hdec, htype, hsub, hemp, hfind]]
              exact iff_of_true ⟨_, rfl⟩
                (Or.inr ⟨payload, rfl, Or.inr (Or.inr ⟨uid, hsub, Or.inl hfind⟩)⟩)
            | some user =>
              cases hact : user.is_active with
              | false =>
                rw [show refresh_access_token key now db r =
                  .error (.unauthorized "User not found or deactivated") by
                    simp [refresh_access_token, hdec, htype, hsub, hemp, hfind, hact]]
                exact iff_of_true ⟨_, rfl⟩
                  (Or.inr ⟨payload, rfl,
                    Or.inr (Or.inr ⟨uid, hsub, Or.inr ⟨user, hfind, hact⟩⟩)⟩)
              | true =>
                rw [show refresh_access_token key now db r =
                  .ok { access_token := create_access_token key now user.id,
                        refresh_token := create_refresh_token key now user.id,
                        token_type := "bearer" } by
                    simp [refresh_access_token, hdec, htype, hsub, hemp, hfind, hact]]
                refine iff_of_false (by rintro ⟨m, hm⟩; exact Except.noConfusion hm) ?_
                rintro (h | ⟨p, hp, hbad⟩)
                · exact Option.noConfusion h
                · injection hp with hp
                  subst hp
                  rcases hbad with h | h | ⟨uid2, hsub2, hbad2⟩
                  · rw [htype] at h
                    exact Bool.noConfusion h
                  · rw [hsub] at h
                    exact Option.noConfusion h
                  · rw [hsub] at hsub2
                    injection hsub2 with h2
                    subst h2
                    rcases hbad2 with h | ⟨u2, hu2, hact2⟩
                    · rw [hfind] at h
                      exact Option.noConfusion h
                    · rw [hfind] at hu2
                      injection hu2 with h3
                      subst h3
                      rw [hact] at hact2
                      exact Bool.noConfusion hact2
  · intro tp htp
    cases hdec : decode_token key now r.refresh_token with
    | none =>
      rw [show refresh_access_token key now db r =
        .error (.unauthorized "Invalid or expired refresh token") by
          simp [refresh_access_token, hdec]] at htp
      exact Except.noConfusion htp
    | some payload =>
      cases htype : verify_token_type payload "refresh" with
      | false =>
        rw [show refresh_access_token key now db r =
          .error (.unauthorized "Invalid token type") by
            simp [refresh_access_token, hdec, htype]] at htp
        exact Except.noConfusion htp
      | true =>
        cases hsub : payload.sub with
        | none =>
          rw [show refresh_access_token key now db r =
            .error (.unauthorized "Invalid token payload") by
              simp [refresh_access_token, hdec, htype, hsub]] at htp
          exact Except.noConfusion htp
        | some uid =>
          cases hemp : uid == "" with
          | true =>
            rw [show refresh_access_token key now db r =
              .error (.unauthorized "Invalid token payload") by
                simp [refresh_access_token, hdec, htype, hsub, hemp]] at htp
            exact Except.noConfusion htp
          | false =>
            cases hfind : List.find? (fun u => u.id == uid) db with
            | none =>
              rw [show refresh_access_token key now db r =
                .error (.unauthorized "User not found or deactivated") by
                  simp [refresh_access_token, hdec, htype, hsub, hemp, hfind]] at htp
              exact Except.noConfusion htp
            | some user =>
              cases hact : user.is_active with
              | false =>
                rw [show refresh_access_token key now db r =
                  .error (.unauthorized "User not found or deactivated") by
                    simp [refresh_access_token, hdec, htype, hsub, hemp, hfind, hact]] at htp
                exact Except.noConfusion htp
              | true =>
                rw [show refresh_access_token key now db r =
                  .ok { access_token := create_access_token key now user.id,
                        refresh_token := create_refresh_token key now user.id,
                        token_type := "bearer" } by
                    simp [refresh_access_token, hdec, htype, hsub, hemp, hfind, hact]] at htp
                injection htp with htp
                subst htp
                have hid : user.id = uid := by simpa using List.find?_some hfind
                refine ⟨user, payload, rfl, ?_, ?_, hact, rfl⟩
                · rw [hsub, hid]
                · rw [← hid] at hfind
                  exact hfind
  · intro t0 sub now2 h
    simp [create_refresh_token, create_token, decode_token, h]

/-- Witness for C3: a malformed refresh token is rejected with 401 over the
empty store. -/
theorem refresh_spec_witness :
    isUnauthorized (refresh_access_token 5 10 [] { refresh_token := .malformed "x" }) :=
  (refresh_spec 5 10 [] { refresh_token := .malformed "x" } (by simp)).1.mpr (Or.inl rfl)

/-- Row inserted by a successful registration, as built in the handler. -/
def newUserOf (d : UserCreate) (newId : String) (salt : Nat) : User :=
  { id := newId, email := d.email, username := d.username,
    hashed_password := get_password_hash salt d.password,
    first_name := d.first_name, last_name := d.last_name,
    role := d.role, is_active := true, phone_number := d.phone_number }

/-- C4: registration fails 409 exactly when an existing user holds the
requested username or email, checking the username first (a row colliding on
both yields the username message), and no failure inserts a row; registering
two users with the same username, even with differing emails, yields exactly
one success and one conflict. -/
theorem register_spec (db : List User) (d : UserCreate) (newId : String) (salt : Nat) :
    ((∃ u ∈ db, u.username = d.username) →
      register db db d newId salt =
        (.error (.http (.conflict "Username already registered")), db))
    ∧ ((∀ u ∈ db, u.username ≠ d.username) → (∃ u ∈ db, u.email = d.email) →
      register db db d newId salt =
        (.error (.http (.conflict "Email already registered")), db))
    ∧ ((∃ m, (register db db d newId salt).1 = .error (.http (.conflict m))) ↔
        ∃ u ∈ db, (u.username = d.username ∨ u.email = d.email))
    ∧ (∀ e, (register db db d newId salt).1 = .error e →
        (register db db d newId salt).2 = db)
    ∧ (∀ d2 newId2 salt2, d2.username = d.username →
        (∀ u ∈ db, u.username ≠ d.username ∧ u.email ≠ d.email ∧ u.id ≠ newId) →
        ∃ nu, register db db d newId salt = (.ok nu, db ++ [nu]) ∧
          ∃ m, (register (db ++ [nu]) (db ++ [nu]) d2 newId2 salt2).1 =
            .error (.http (.conflict m))) := by
  refine ⟨?_, ?_, ?_, ?_, ?_⟩
  · rintro ⟨u, hu, he⟩
    have hs : (db.find? (fun v => v.username == d.username)).isSome := by
      exact List.find?_isSome.mpr ⟨u, hu, by simp [he]⟩
    simp [register, hs]
  · intro h1 h2
    have hfu : db.find? (fun v => v.username == d.username) = none :=
      List.find?_eq_none.mpr fun u hu => by simpa using h1 u hu
    obtain ⟨u, hu, he⟩ := h2
    have hs : (db.find? (fun v => v.email == d.email)).isSome := by
      exact List.find?_isSome.mpr ⟨u, hu, by simp [he]⟩
    simp [register, hfu, hs]
  · cases hfu : db.find? (fun v => v.username == d.username) with
    | some u =>
      have hs : (db.find? (fun v => v.username == d.username)).isSome := by
        rw [hfu]
        rfl
      refine iff_of_true ⟨"Username already registered", by simp [register, hs]⟩ ?_
      exact ⟨u, List.mem_of_find?_eq_some hfu,
        Or.inl (by simpa using List.find?_some hfu)⟩
    | none =>
      cases hfe : db.find? (fun v => v.email == d.email) with
      | some u =>
        have hs : (db.find? (fun v => v.email == d.email)).isSome := by
          rw [hfe]
          rfl
        refine iff_of_true ⟨"Email already registered", by simp [register, hfu, hs]⟩ ?_
        exact ⟨u, List.mem_of_find?_eq_some hfe,
          Or.inr (by simpa using List.find?_some hfe)⟩
      | none =>
        refine iff_of_false ?_ ?_
        · rintro ⟨m, hm⟩
          simp only [register, hfu, hfe, Option.isSome_none, Bool.false_eq_true,
            if_false] at hm
          rcases hc : commitUser db
              { id := newId, email := d.email, username := d.username,
                hashed_password := get_password_hash salt d.password,
                first_name := d.first_name, last_name := d.last_name,
                role := d.role, is_active := true,
                phone_number := d.phone_number } with e | db2
          · rw [hc] at hm
            simp at hm
          · rw [hc] at hm
            simp at hm
        · rintro ⟨u, hu, he | he⟩
          · have := List.find?_eq_none.mp hfu u hu
            simp [he] at this
          · have := List.find?_eq_none.mp hfe u hu
            simp [he] at this
  · intro e he
    cases hfu : db.find? (fun v => v.username == d.username) with
    | some u =>
      have hs : (db.find? (fun v => v.username == d.username)).isSome := by
        rw [hfu]
        rfl
      simp [register, hs]
    | none =>
      cases hfe : db.find? (fun v => v.email == d.email) with
      | some u =>
        have hs : (db.find? (fun v => v.email == d.email)).isSome := by
          rw [hfe]
          rfl
        simp [register, hfu, hs]
      | none =>
        rcases hc : commitUser db
            { id := newId, email := d.email, username := d.username,
              hashed_password := get_password_hash salt d.password,
              first_name := d.first_name, last_name := d.last_name,
              role := d.role, is_active := true,
              phone_number := d.phone_number } with e2 | db2
        · simp [register, hfu, hfe, hc]
        · rw [show (register db db d newId salt).1 = .ok
              { id := newId, email := d.email, username := d.username,
                hashed_password := get_password_hash salt d.password,
                first_name := d.first_name, last_name := d.last_name,
                role := d.role, is_active := true,
                phone_number := d.phone_number } by simp [register, hfu, hfe, hc]] at he
          exact Except.noConfusion he
  · intro d2 newId2 salt2 hsame hfresh
    have hfu : db.find? (fun v => v.username == d.username) = none :=
      List.find?_eq_none.mpr fun u hu => by simpa using (hfresh u hu).1
    have hfe : db.find? (fun v => v.email == d.email) = none :=
      List.find?_eq_none.mpr fun u hu => by simpa using (hfresh u hu).2.1
    have hany : db.any (fun v => v.id == newId || v.email == d.email
        || v.username == d.username) = false := by
      rw [List.any_eq_false]
      intro u hu
      simp [(hfresh u hu).1, (hfresh u hu).2.1, (hfresh u hu).2.2]
    refine ⟨newUserOf d newId salt, ?_, ?_⟩
    · simp [register, newUserOf, hfu, hfe, commitUser, hany]
    · have hs2 : ((db ++ [newUserOf d newId salt]).find?
          (fun v => v.username == d2.username)).isSome := by
        refine List.find?_isSome.mpr ⟨newUserOf d newId salt,
          List.mem_append_right _ (List.mem_singleton.mpr rfl), ?_⟩
        simp [newUserOf, hsame]
      refine ⟨"Username already registered", ?_⟩
      simp only [register]
      rw [if_pos hs2]

/-- A concrete registration request. -/
def wData : UserCreate :=
  { email := "alice@x.com", username := "alice", password := "secret123",
    first_name := "A", last_name := "L", phone_number := none, role := .STAFF }

/-- The same username with a different email. -/
def wData2 : UserCreate := { wData with email := "alice2@x.com" }

/-- Witness for C4: on an empty store, registering `wData` succeeds and a
second registration with the same username conflicts. -/
theorem register_spec_witness :
    ∃ nu, register [] [] wData wId 0 = (.ok nu, [] ++ [nu]) ∧
      ∃ m, (register ([] ++ [nu]) ([] ++ [nu]) wData2 wId2 1).1 =
        .error (.http (.conflict m)) :=
  (register_spec [] wData wId 0).2.2.2.2 wData2 wId2 1 rfl (by simp)

/-- C1: the authorization gate fails 401 exactly on the rejection conditions
of the specification (header absent or not led by the scheme string, no
decoded payload, wrong token type, subject claim absent or not a well-formed
UUID, or user row absent or inactive), and in every other case it resolves
and returns the stored user the subject claim designates. -/
theorem get_current_user_spec (db : List User)
    (decodeTok : String → Option TokenClaims) (authorization : Option String) :
    (isUnauthorized (get_current_user db decodeTok authorization) ↔
      gateRejects db decodeTok authorization)
    ∧ ((∃ u, get_current_user db decodeTok authorization = .ok u) ↔
      ¬ gateRejects db decodeTok authorization)
    ∧ (∀ u, get_current_user db decodeTok authorization = .ok u →
        ∃ a payload, authorization = some a ∧
          decodeTok (extractToken a) = some payload ∧
          payload.sub = some u.id ∧
          List.find? (fun v => v.id == u.id) db = some u ∧ u.is_active = true) := by
  rcases authorization with _ | a
  · refine ⟨?_, ?_, ?_⟩
    · exact iff_of_true ⟨_, rfl⟩ trivial
    · refine iff_of_false ?_ (not_not_intro trivial)
      rintro ⟨u, hu⟩
      exact Except.noConfusion hu
    · intro u hu
      exact Except.noConfusion hu
  · cases hpre : bearerChars.isPrefixOf a.data with
    | false =>
      have hgcu : get_current_user db decodeTok (some a) =
          .error (.unauthorized "Missing or invalid authorization header") := by
        simp [get_current_user, hpre]
      have hrej : gateRejects db decodeTok (some a) := Or.inl hpre
      refine ⟨?_, ?_, ?_⟩
      · rw [hgcu]
        exact iff_of_true ⟨_, rfl⟩ hrej
      · rw [hgcu]
        exact iff_of_false (by rintro ⟨u, hu⟩; exact Except.noConfusion hu)
          (not_not_intro hrej)
      · intro u hu
        rw [hgcu] at hu
        exact Except.noConfusion hu
    | true =>
      cases hdec : decodeTok (extractToken a) with
      | none =>
        have hgcu : get_current_user db decodeTok (some a) =
            .error (.unauthorized "Invalid or expired token") := by
          simp [get_current_user, hpre, hdec]
        have hrej : gateRejects db decodeTok (some a) := Or.inr (Or.inl hdec)
        refine ⟨?_, ?_, ?_⟩
        · rw [hgcu]
          exact iff_of_true ⟨_, rfl⟩ hrej
        · rw [hgcu]
          exact iff_of_false (by rintro ⟨u, hu⟩; exact Except.noConfusion hu)
            (not_not_intro hrej)
        · intro u hu
          rw [hgcu] at hu
          exact Except.noConfusion hu
      | some payload =>
        cases htype : verify_token_type payload "access" with
        | false =>
          have hgcu : get_current_user db decodeTok (some a) =
              .error (.unauthorized "Invalid token type") := by
            simp [get_current_user, hpre, hdec, htype]
          have hrej : gateRejects db decodeTok (some a) :=
            Or.inr (Or.inr ⟨payload, hdec, Or.inl htype⟩)
          refine ⟨?_, ?_, ?_⟩
          · rw [hgcu]
            exact iff_of_true ⟨_, rfl⟩ hrej
          · rw [hgcu]
            exact iff_of_false (by rintro ⟨u, hu⟩; exact Except.noConfusion hu)
              (not_not_intro hrej)
          · intro u hu
            rw [hgcu] at hu
            exact Except.noConfusion hu
        | true =>
          cases hsub : payload.sub with
          | none =>
            have hgcu : get_current_user db decodeTok (some a) =
                .error (.unauthorized "Invalid token payload") := by
              simp [get_current_user, hpre, hdec, htype, hsub]
            have hrej : gateRejects db decodeTok (some a) :=
              Or.inr (Or.inr ⟨payload, hdec, Or.inr (Or.inl hsub)⟩)
            refine ⟨?_, ?_, ?_⟩
            · rw [hgcu]
              exact iff_of_true ⟨_, rfl⟩ hrej
            · rw [hgcu]
              exact iff_of_false (by rintro ⟨u, hu⟩; exact Except.noConfusion hu)
                (not_not_intro hrej)
            · intro u hu
              rw [hgcu] at hu
              exact Except.noConfusion hu
          | some uid =>
            cases hemp : uid == "" with
            | true =>
              have huid : uid = "" := by simpa using hemp
              have hgcu : get_current_user db decodeTok (some a) =
                  .error (.unauthorized "Invalid token payload") := by
                simp [get_current_user, hpre, hdec, htype, hsub, hemp]
              have hrej : gateRejects db decodeTok (some a) :=
                Or.inr (Or.inr ⟨payload, hdec, Or.inr (Or.inr
                  ⟨uid, hsub, Or.inl (by rw [huid]; decide)⟩)⟩)
              refine ⟨?_, ?_, ?_⟩
              · rw [hgcu]
                exact iff_of_true ⟨_, rfl⟩ hrej
              · rw [hgcu]
                exact iff_of_false (by rintro ⟨u, hu⟩; exact Except.noConfusion hu)
                  (not_not_intro hrej)
              · intro u hu
                rw [hgcu] at hu
                exact Except.noConfusion hu
            | false =>
              cases huuid : isValidUUID uid with
              | false =>
                have hgcu : get_current_user db decodeTok (some a) =
                    .error (.unauthorized "Invalid user ID format") := by
                  simp [get_current_user, hpre, hdec, htype, hsub, hemp, huuid]
                have hrej : gateRejects db decodeTok (some a) :=
                  Or.inr (Or.inr ⟨payload, hdec, Or.inr (Or.inr
                    ⟨uid, hsub, Or.inl huuid⟩)⟩)
                refine ⟨?_, ?_, ?_⟩
                · rw [hgcu]
                  exact iff_of_true ⟨_, rfl⟩ hrej
                · rw [hgcu]
                  exact iff_of_false (by rintro ⟨u, hu⟩; exact Except.noConfusion hu)
                    (not_not_intro hrej)
                · intro u hu
                  rw [hgcu] at hu
                  exact Except.noConfusion hu
              | true =>
                cases hfind : List.find? (fun v => v.id == uid) db with
                | none =>
                  have hgcu : get_current_user db decodeTok (some a) =
                      .error (.unauthorized "User not found") := by
                    simp [get_current_user, hpre, hdec, htype, hsub, hemp, huuid, hfind]
                  have hrej : gateRejects db decodeTok (some a) :=
                    Or.inr (Or.inr ⟨payload, hdec, Or.inr (Or.inr
                      ⟨uid, hsub, Or.inr (Or.inl hfind)⟩)⟩)
                  refine ⟨?_, ?_, ?_⟩
                  · rw [hgcu]
                    exact iff_of_true ⟨_, rfl⟩ hrej
                  · rw [hgcu]
                    exact iff_of_false (by rintro ⟨u, hu⟩; exact Except.noConfusion hu)
                      (not_not_intro hrej)
                  · intro u hu
                    rw [hgcu] at hu
                    exact Except.noConfusion hu
                | some user =>
                  cases hact : user.is_active with
                  | false =>
                    have hgcu : get_current_user db decodeTok (some a) =
                        .error (.unauthorized "User account is deactivated") := by
                      simp [get_current_user, hpre, hdec, htype, hsub, hemp, huuid,
                        hfind, hact]
                    have hrej : gateRejects db decodeTok (some a) :=
                      Or.inr (Or.inr ⟨payload, hdec, Or.inr (Or.inr
                        ⟨uid, hsub, Or.inr (Or.inr ⟨user, hfind, hact⟩)⟩)⟩)
                    refine ⟨?_, ?_, ?_⟩
                    · rw [hgcu]
                      exact iff_of_true ⟨_, rfl⟩ hrej
                    · rw [hgcu]
                      exact iff_of_false (by rintro ⟨u, hu⟩; exact Except.noConfusion hu)
                        (not_not_intro hrej)
                    · intro u hu
                      rw [hgcu] at hu
                      exact Except.noConfusion hu
                  | true =>
                    have hgcu : get_current_user db decodeTok (some a) = .ok user := by
                      simp [get_current_user, hpre, hdec, htype, hsub, hemp, huuid,
                        hfind, hact]
                    have hnrej : ¬ gateRejects db decodeTok (some a) := by
                      rintro (h | h | ⟨p, hp, h⟩)
                      · rw [hpre] at h
                        exact Bool.noConfusion h
                      · rw [hdec] at h
                        exact Option.noConfusion h
                      · rw [hdec] at hp
                        injection hp with hp
                        subst hp
                        rcases h with h | h | ⟨uid2, hsub2, h⟩
                        · rw [htype] at h
                          exact Bool.noConfusion h
                        · rw [hsub] at h
                          exact Option.noConfusion h
                        · rw [hsub] at hsub2
                          injection hsub2 with h2
                          subst h2
                          rcases h with h | h | ⟨u2, hfind2, hact2⟩
                          · rw [huuid] at h
                            exact Bool.noConfusion h
                          · rw [hfind] at h
                            exact Option.noConfusion h
                          · rw [hfind] at hfind2
                            injection hfind2 with h3
                            subst h3
                            rw [hact] at hact2
                            exact Bool.noConfusion hact2
                    refine ⟨?_, ?_, ?_⟩
                    · rw [hgcu]
                      exact iff_of_false (by rintro ⟨m, hm⟩; exact Except.noConfusion hm)
                        hnrej
                    · rw [hgcu]
                      exact iff_of_true ⟨user, rfl⟩ hnrej
                    · intro u hu
                      rw [hgcu] at hu
                      injection hu with hu
                      subst hu
                      have hid : user.id = uid := by simpa using List.find?_some hfind
                      refine ⟨a, payload, rfl, hdec, ?_, ?_, hact⟩
                      · rw [hsub, hid]
                      · rw [← hid] at hfind
                        exact hfind

/-- Decode oracle for the C1 witness: accepts exactly the token "tok". -/
def wDecode : String → Option TokenClaims :=
  fun s => if s == "tok" then
    some { sub := some wId, exp := some 100, type := some "access" } else none

/-- Witness for C1: a well-formed header over a one-user store resolves that
user. -/
theorem get_current_user_spec_witness :
    ∃ a payload, (some "Bearer tok" : Option String) = some a ∧
      wDecode (extractToken a) = some payload ∧
      payload.sub = some wUser.id ∧
      List.find? (fun v => v.id == wUser.id) [wUser] = some wUser ∧
      wUser.is_active = true :=
  (get_current_user_spec [wUser] wDecode (some "Bearer tok")).2.2 wUser rfl

/-- Store state after the first of two racing registrations commits. -/
def raceDb : List User := (register [] [] wData wId 0).2

/-- The outcome a handler produces when it raises the 409 conflict. -/
def conflictResponse (r : Except RegisterFailure User) : Prop :=
  ∃ m, r = .error (.http (.conflict m))

/-- C7 (divergence witness): two racing registrations with the same username
both pass the application-level duplicate checks against the empty snapshot;
the second one then hits the store's unique-constraint enforcement at commit
time.  `get_db` rolls the transaction back (the store is unchanged), but the
failure that escapes is the store's `IntegrityError` itself: it is not
translated into the 409 `Conflict` response the specification requires. -/
theorem register_race_not_translated :
    (∃ u1, (register [] [] wData wId 0).1 = .ok u1)
    ∧ (register [] raceDb wData2 wId2 1).1 = .error (.dbErr .integrityError)
    ∧ (register [] raceDb wData2 wId2 1).2 = raceDb
    ∧ ¬ conflictResponse (register [] raceDb wData2 wId2 1).1 := by
  refine ⟨⟨newUserOf wData wId 0, rfl⟩, rfl, rfl, ?_⟩
  rintro ⟨m, hm⟩
  rw [show (register [] raceDb wData2 wId2 1).1 = .error (.dbErr .integrityError)
    from rfl] at hm
  injection hm with h
  exact RegisterFailure.noConfusion h

end TennisShop
